import Mathlib

/-!
Shallow embedding of the batching core of the `telegram-batch-bot` repository
(`src/batcher.ts`), together with proofs of the behavioural claims about it.

The batcher is a single-threaded (event-loop) program.  We model its mutable
state explicitly and each public operation as a pure state transformer that
additionally reports its observable effects: the dispatch calls made to the
registered processors and the failure log lines written via `console.error`.

JavaScript promises are modelled by `Except String`: a fulfilled promise is
`Except.ok`, a rejected one `Except.error reason`.  An `async` function whose
body awaits a promise is a function into `Except String`; `await` is monadic
bind (a rejection of the awaited promise rejects the whole function).
`Promise.allSettled` never rejects: it fulfills with the list of settled
outcomes of its inputs.
-/

set_option autoImplicit false

namespace TelegramBatchBot

/-- Notification level, one of the three string literals used by `batcher.ts`
(`NotificationLevel` in the missing `types.ts`). -/
inductive Level where
  | info
  | warning
  | error
deriving DecidableEq

/-- A queued message.  `batcher.ts` enqueues objects of shape
`chatId / text / level`; the repository's tests additionally show an optional
`error` field carried by error-level messages (`types.ts` itself is absent
from the snapshot).  `batcher.ts` never writes that field, which we model by
the field being `Option` and the enqueue path always storing `none`. -/
structure Message where
  chatId : String
  text : String
  level : Level
  error : Option String
deriving DecidableEq

/-- A registered processor.  Modelled from the spec and the tests (the
`MessageProcessor` interface lives in the missing `types.ts`): a `name` and an
async `processBatch` whose settled outcome we represent as `Except`.
`batcher.ts` itself only ever calls `processBatch`. -/
structure MessageProcessor where
  name : String
  processBatch : List Message → Except String Unit

/-- The batcher configuration (`Required<BatcherConfig>`): `batcher.ts` reads
only `maxBatchSize` and `maxWaitMs`.  TypeScript numbers may be negative, so
we use `Int`. -/
structure BatcherConfig where
  maxBatchSize : Int
  maxWaitMs : Int
deriving DecidableEq

/-- One dispatch call observed by the outside world: processor `procName`
(at position `index` in the processors array) received `batch`. -/
structure DispatchCall where
  procName : String
  index : Nat
  batch : List Message
deriving DecidableEq

/-- A `console.error` line: the tag template and the rejection reason. -/
abbrev LogEntry := String × String

/-- Effects of one synchronous step: dispatch calls made and failures logged. -/
abbrev Effects := List DispatchCall × List LogEntry

/-! ### JavaScript `Map` with string keys, as an insertion-ordered
association list (`Map.set` updates in place, otherwise appends). -/

/-- `Map.get`: first entry with the given key. -/
def mapGet {α : Type} : List (String × α) → String → Option α
  | [], _ => none
  | e :: rest, k => if e.1 = k then some e.2 else mapGet rest k

/-- `Map.has`. -/
def mapHas {α : Type} (m : List (String × α)) (k : String) : Bool :=
  (mapGet m k).isSome

/-- `Map.set`: replace the value of an existing key in place, or append. -/
def mapSet {α : Type} : List (String × α) → String → α → List (String × α)
  | [], k, v => [(k, v)]
  | e :: rest, k, v => if e.1 = k then (k, v) :: rest else e :: mapSet rest k v

/-- `Map.keys()`, in insertion order. -/
def mapKeys {α : Type} (m : List (String × α)) : List String :=
  m.map Prod.fst

/-- The mutable state captured by the closure of `createMessageBatcher`:
the `queues` map, the (never populated) `timers` map, and whether the
`setInterval` handle `processInterval` is still active. -/
structure BatcherState where
  queues : List (String × List Message)
  timers : List String
  processIntervalActive : Bool
deriving DecidableEq

/-! ### The operations of `batcher.ts` -/

/-- The line `processors.map((processor) => processor.processBatch(batch))`:
invokes every processor on the batch and collects the (settled) outcomes. -/
def settleAll (procs : List MessageProcessor) (batch : List Message) :
    List (Except String Unit) :=
  procs.map fun p => p.processBatch batch

/-- The dispatch calls performed by that same line: every registered
processor, in array order, receives the batch. -/
def fanout (procs : List MessageProcessor) (batch : List Message) :
    List DispatchCall :=
  procs.enum.map fun ip => ⟨ip.2.name, ip.1, batch⟩

/-- `Promise.allSettled`: fulfills (never rejects) with the settled outcomes
of its inputs, in order. -/
def promiseAllSettled (tasks : List (Except String Unit)) :
    Except String (List (Except String Unit)) :=
  Except.ok tasks

/-- The `results.forEach` loop of `processBatch`: for each rejected outcome,
`console.error` a line tagged with the processor INDEX and the reason. -/
def failureLogs (results : List (Except String Unit)) : List LogEntry :=
  results.enum.filterMap fun ir =>
    match ir.2 with
    | Except.error reason => some ("Processor " ++ toString ir.1 ++ " failed:", reason)
    | Except.ok _ => none

/-- `async function processBatch(chatId)`.  Returns early on a missing or
empty queue; otherwise snapshots the queue, resets it to empty (both before
the only suspension point), awaits `Promise.allSettled` over all processors
and logs the rejected outcomes.  The returned promise is the `Except`. -/
def processBatchM (procs : List MessageProcessor) (chatId : String)
    (s : BatcherState) : Except String (BatcherState × Effects) :=
  match mapGet s.queues chatId with
  | none => Except.ok (s, [], [])
  | some queue =>
    if queue.isEmpty then Except.ok (s, [], [])
    else
      match promiseAllSettled (settleAll procs queue) with
      | Except.error e => Except.error e
      | Except.ok results =>
        Except.ok ({ s with queues := mapSet s.queues chatId [] },
          fanout procs queue, failureLogs results)

/-- `function queueMessage(message, level)`.  The topic is hard-coded to
the string `default`; the message is appended; if the queue length has
reached `maxBatchSize` the batch is processed immediately (fire-and-forget:
the returned promise of `processBatch` is not awaited, so `queueMessage`
never fails; its synchronous effects are reported here). -/
def queueMessage (cfg : BatcherConfig) (procs : List MessageProcessor)
    (message : String) (level : Level) (s : BatcherState) :
    BatcherState × Effects :=
  let chatId := "default"
  let qs0 := if mapHas s.queues chatId then s.queues else mapSet s.queues chatId []
  let queue := (mapGet qs0 chatId).getD []
  let newQueue := queue ++ [⟨chatId, message, level, none⟩]
  let s1 : BatcherState := { s with queues := mapSet qs0 chatId newQueue }
  if (newQueue.length : Int) ≥ cfg.maxBatchSize then
    match processBatchM procs chatId s1 with
    | Except.ok r => r
    | Except.error _ => (s1, [], [])
  else (s1, [], [])

/-- `function info(message)`: enqueue at level info. -/
def info (cfg : BatcherConfig) (procs : List MessageProcessor)
    (message : String) (s : BatcherState) : BatcherState × Effects :=
  queueMessage cfg procs message Level.info s

/-- `function warning(message)`: enqueue at level warning. -/
def warning (cfg : BatcherConfig) (procs : List MessageProcessor)
    (message : String) (s : BatcherState) : BatcherState × Effects :=
  queueMessage cfg procs message Level.warning s

/-- `function error(message)`: enqueue at level error.  Note the source
function takes only the message text: no error object parameter exists. -/
def error (cfg : BatcherConfig) (procs : List MessageProcessor)
    (message : String) (s : BatcherState) : BatcherState × Effects :=
  queueMessage cfg procs message Level.error s

/-- The `for (const chatId of queues.keys()) await processBatch(chatId)`
loop shared by `flush` and the interval callback, over a snapshot of the
keys (processing never adds or removes keys, so the live iterator agrees). -/
def flushLoop (procs : List MessageProcessor) :
    List String → BatcherState × Effects →
    Except String (BatcherState × Effects)
  | [], acc => Except.ok acc
  | chatId :: rest, acc =>
    match processBatchM procs chatId acc.1 with
    | Except.error e => Except.error e
    | Except.ok r => flushLoop procs rest (r.1, acc.2.1 ++ r.2.1, acc.2.2 ++ r.2.2)

/-- `async function flush()`: awaits `processBatch` for every key. -/
def flushM (procs : List MessageProcessor) (s : BatcherState) :
    Except String (BatcherState × Effects) :=
  flushLoop procs (mapKeys s.queues) (s, [], [])

/-- `function destroy()`: clear the interval, clear all per-topic timers and
clear the queues map.  No dispatch happens. -/
def destroy (_s : BatcherState) : BatcherState :=
  { queues := [], timers := [], processIntervalActive := false }

/-- The state produced by `createMessageBatcher` before any operation runs:
empty maps, interval started by `startProcessing()`. -/
def initState : BatcherState :=
  { queues := [], timers := [], processIntervalActive := true }

/-- `createMessageBatcher(processors, config)`: builds the state, starts the
interval and returns the interface.  The source performs no validation of
`config` whatsoever, so construction always succeeds. -/
def createMessageBatcher (_procs : List MessageProcessor)
    (_cfg : BatcherConfig) : Except String BatcherState :=
  Except.ok initState

/-- The property names of the object literal returned by
`createMessageBatcher` (the `return` statement of `batcher.ts`). -/
def returnedInterface : List String :=
  ["info", "warning", "error", "queueMessage", "flush", "destroy"]

/-! ### Event-level semantics: one step per externally triggered event. -/

/-- An externally triggered event: a public call, or the interval firing. -/
inductive Op where
  | info (text : String)
  | warning (text : String)
  | error (text : String)
  | queueMsg (text : String) (level : Level)
  | flush
  | tick
  | destroy

/-- One event step.  The interval callback (`tick`) only runs while the
interval is active; its body is the same per-key loop as `flush` (the
callback fires `processBatch` without awaiting, so a rejection would be an
unhandled rejection and is dropped — that branch is unreachable anyway). -/
def step (cfg : BatcherConfig) (procs : List MessageProcessor)
    (s : BatcherState) : Op → BatcherState × Effects
  | Op.info t => info cfg procs t s
  | Op.warning t => warning cfg procs t s
  | Op.error t => error cfg procs t s
  | Op.queueMsg t lv => queueMessage cfg procs t lv s
  | Op.flush =>
    match flushM procs s with
    | Except.ok r => r
    | Except.error _ => (s, [], [])
  | Op.tick =>
    if s.processIntervalActive then
      match flushM procs s with
      | Except.ok r => r
      | Except.error _ => (s, [], [])
    else (s, [], [])
  | Op.destroy => (destroy s, [], [])

/-- Run a sequence of events from a given state, accumulating effects. -/
def runFrom (cfg : BatcherConfig) (procs : List MessageProcessor)
    (s : BatcherState) : List Op → BatcherState × Effects
  | [] => (s, [], [])
  | op :: rest =>
    let r := step cfg procs s op
    let r2 := runFrom cfg procs r.1 rest
    (r2.1, r.2.1 ++ r2.2.1, r.2.2 ++ r2.2.2)

/-- Run a sequence of events on a freshly constructed batcher. -/
def run (cfg : BatcherConfig) (procs : List MessageProcessor)
    (ops : List Op) : BatcherState × Effects :=
  runFrom cfg procs initState ops

/-- Every queue key is the hard-coded topic `default`. -/
def onlyDefaultTopic (s : BatcherState) : Bool :=
  s.queues.all fun e => e.1 == "default"

/-- The messages built by enqueuing a list of text/level pairs. -/
def mkMsgs (items : List (String × Level)) : List Message :=
  items.map fun it => ⟨"default", it.1, it.2, none⟩

/-! ### Lemmas about the map model -/

theorem mapGet_set_self {α : Type} (m : List (String × α)) (k : String) (v : α) :
    mapGet (mapSet m k v) k = some v := by
  induction m with
  | nil => simp [mapSet, mapGet]
  | cons e rest ih =>
    by_cases h : e.1 = k
    · simp [mapSet, h, mapGet]
    · simp [mapSet, h, mapGet, ih]

theorem mapSet_mapSet {α : Type} (m : List (String × α)) (k : String) (v w : α) :
    mapSet (mapSet m k v) k w = mapSet m k w := by
  induction m with
  | nil => simp [mapSet]
  | cons e rest ih =>
    by_cases h : e.1 = k
    · simp [mapSet, h]
    · simp [mapSet, h, ih]

theorem mapGet_mem {α : Type} (m : List (String × α)) (k : String) (v : α)
    (h : mapGet m k = some v) : (k, v) ∈ m := by
  induction m with
  | nil => simp [mapGet] at h
  | cons e rest ih =>
    by_cases he : e.1 = k
    · simp [mapGet, he] at h
      cases e with
      | mk a b =>
        simp only at he h
        subst he
        subst h
        exact List.mem_cons_self _ _
    · simp [mapGet, he] at h
      exact List.mem_cons_of_mem _ (ih h)

theorem mem_mapSet {α : Type} (m : List (String × α)) (k : String) (v : α)
    (e : String × α) (h : e ∈ mapSet m k v) : e = (k, v) ∨ e ∈ m := by
  induction m with
  | nil => simp [mapSet] at h; simp [h]
  | cons a rest ih =>
    by_cases ha : a.1 = k
    · simp [mapSet, ha] at h
      rcases h with h | h
      · exact Or.inl h
      · exact Or.inr (List.mem_cons_of_mem _ h)
    · simp [mapSet, ha] at h
      rcases h with h | h
      · exact Or.inr (by simp [h])
      · rcases ih h with h2 | h2
        · exact Or.inl h2
        · exact Or.inr (List.mem_cons_of_mem _ h2)

/-! ### Lemmas about `processBatch` -/

theorem processBatchM_none (procs : List MessageProcessor) (chatId : String)
    (s : BatcherState) (h : mapGet s.queues chatId = none) :
    processBatchM procs chatId s = Except.ok (s, [], []) := by
  simp [processBatchM, h]

theorem processBatchM_nil (procs : List MessageProcessor) (chatId : String)
    (s : BatcherState) (h : mapGet s.queues chatId = some []) :
    processBatchM procs chatId s = Except.ok (s, [], []) := by
  simp [processBatchM, h]

theorem processBatchM_drain (procs : List MessageProcessor) (chatId : String)
    (s : BatcherState) (q : List Message)
    (h : mapGet s.queues chatId = some q) (hne : q ≠ []) :
    processBatchM procs chatId s =
      Except.ok ({ s with queues := mapSet s.queues chatId [] },
        fanout procs q, failureLogs (settleAll procs q)) := by
  cases q with
  | nil => exact absurd rfl hne
  | cons a t => simp [processBatchM, h, promiseAllSettled]

theorem processBatchM_ok (procs : List MessageProcessor) (chatId : String)
    (s : BatcherState) : ∃ r, processBatchM procs chatId s = Except.ok r := by
  match h : mapGet s.queues chatId with
  | none => exact ⟨_, processBatchM_none procs chatId s h⟩
  | some [] => exact ⟨_, processBatchM_nil procs chatId s h⟩
  | some (a :: t) => exact ⟨_, processBatchM_drain procs chatId s (a :: t) h (by simp)⟩

theorem processBatchM_preserves (procs : List MessageProcessor) (chatId : String)
    (s : BatcherState) (r : BatcherState × Effects)
    (h : processBatchM procs chatId s = Except.ok r) :
    r.1.timers = s.timers ∧ r.1.processIntervalActive = s.processIntervalActive := by
  match hq : mapGet s.queues chatId with
  | none =>
    rw [processBatchM_none procs chatId s hq] at h
    injection h with h
    subst h
    exact ⟨rfl, rfl⟩
  | some [] =>
    rw [processBatchM_nil procs chatId s hq] at h
    injection h with h
    subst h
    exact ⟨rfl, rfl⟩
  | some (a :: t) =>
    rw [processBatchM_drain procs chatId s (a :: t) hq (by simp)] at h
    injection h with h
    subst h
    exact ⟨rfl, rfl⟩

/-! ### Lemmas about `queueMessage` -/

theorem queueMessage_no_trigger (cfg : BatcherConfig) (procs : List MessageProcessor)
    (t : String) (lv : Level) (s : BatcherState)
    (hlt : (((mapGet s.queues "default").getD []).length + 1 : Int) < cfg.maxBatchSize) :
    queueMessage cfg procs t lv s =
      (⟨mapSet s.queues "default"
          (((mapGet s.queues "default").getD []) ++ [⟨"default", t, lv, none⟩]),
        s.timers, s.processIntervalActive⟩, [], []) := by
  match h : mapGet s.queues "default" with
  | some q =>
    rw [h] at hlt
    simp only [Option.getD] at hlt
    have hcond : ¬ (cfg.maxBatchSize ≤ (q.length : Int) + 1) := by omega
    simp [queueMessage, mapHas, h, hcond]
  | none =>
    rw [h] at hlt
    simp only [Option.getD] at hlt
    simp only [List.length_nil] at hlt
    have hcond : ¬ (cfg.maxBatchSize ≤ (1 : Int)) := by omega
    simp [queueMessage, mapHas, h, mapGet_set_self, mapSet_mapSet, hcond]

theorem queueMessage_trigger (cfg : BatcherConfig) (procs : List MessageProcessor)
    (t : String) (lv : Level) (s : BatcherState)
    (hge : (((mapGet s.queues "default").getD []).length + 1 : Int) ≥ cfg.maxBatchSize) :
    queueMessage cfg procs t lv s =
      (⟨mapSet s.queues "default" [], s.timers, s.processIntervalActive⟩,
       fanout procs (((mapGet s.queues "default").getD []) ++ [⟨"default", t, lv, none⟩]),
       failureLogs (settleAll procs
         (((mapGet s.queues "default").getD []) ++ [⟨"default", t, lv, none⟩]))) := by
  match h : mapGet s.queues "default" with
  | some q =>
    rw [h] at hge
    simp only [Option.getD] at hge
    have hcond : cfg.maxBatchSize ≤ (q.length : Int) + 1 := by omega
    have hdrain := processBatchM_drain procs "default"
      (⟨mapSet s.queues "default" (q ++ [⟨"default", t, lv, none⟩]),
        s.timers, s.processIntervalActive⟩)
      (q ++ [⟨"default", t, lv, none⟩]) (by simp [mapGet_set_self]) (by simp)
    simp only [queueMessage, mapHas, h, Option.isSome, if_true, Option.getD,
      List.length_append, List.length_singleton] at hdrain ⊢
    rw [if_pos (by push_cast; omega)]
    rw [hdrain]
    simp [mapSet_mapSet]
  | none =>
    rw [h] at hge
    simp only [Option.getD] at hge
    simp only [List.length_nil] at hge
    have hdrain := processBatchM_drain procs "default"
      (⟨mapSet (mapSet s.queues "default" []) "default"
          ([] ++ [⟨"default", t, lv, none⟩]), s.timers, s.processIntervalActive⟩)
      ([] ++ [⟨"default", t, lv, none⟩]) (by simp [mapGet_set_self]) (by simp)
    simp only [queueMessage, mapHas, h, Option.isSome, Bool.false_eq_true, if_false,
      mapGet_set_self, Option.getD] at hdrain ⊢
    rw [if_pos (by simp; omega)]
    rw [hdrain]
    simp [mapSet_mapSet]

theorem queueMessage_interval (cfg : BatcherConfig) (procs : List MessageProcessor)
    (t : String) (lv : Level) (s : BatcherState) :
    (queueMessage cfg procs t lv s).1.processIntervalActive = s.processIntervalActive := by
  by_cases hge : (((mapGet s.queues "default").getD []).length + 1 : Int) ≥ cfg.maxBatchSize
  · rw [queueMessage_trigger cfg procs t lv s hge]
  · rw [queueMessage_no_trigger cfg procs t lv s (lt_of_not_ge hge)]

/-! ### Lemmas about `flush` -/

theorem flushLoop_ok (procs : List MessageProcessor) (keys : List String) :
    ∀ acc, ∃ r, flushLoop procs keys acc = Except.ok r := by
  induction keys with
  | nil => intro acc; exact ⟨acc, rfl⟩
  | cons k rest ih =>
    intro acc
    obtain ⟨r, hr⟩ := processBatchM_ok procs k acc.1
    simp only [flushLoop, hr]
    exact ih _

theorem flushLoop_preserves (procs : List MessageProcessor) (keys : List String) :
    ∀ acc r, flushLoop procs keys acc = Except.ok r →
      r.1.timers = acc.1.timers ∧
      r.1.processIntervalActive = acc.1.processIntervalActive := by
  induction keys with
  | nil =>
    intro acc r h
    simp only [flushLoop] at h
    injection h with h
    subst h
    exact ⟨rfl, rfl⟩
  | cons k rest ih =>
    intro acc r h
    obtain ⟨r1, hr1⟩ := processBatchM_ok procs k acc.1
    rw [flushLoop, hr1] at h
    obtain ⟨h1, h2⟩ := processBatchM_preserves procs k acc.1 r1 hr1
    obtain ⟨h3, h4⟩ := ih _ r h
    exact ⟨h3.trans h1, h4.trans h2⟩

theorem flushM_ok (procs : List MessageProcessor) (s : BatcherState) :
    ∃ r, flushM procs s = Except.ok r :=
  flushLoop_ok procs (mapKeys s.queues) (s, [], [])

/-- Flushing a batcher whose only (non-empty) queue is the default topic:
the flush promise fulfills, every processor receives the full batch, the
rejected outcomes are logged, and the queue is left empty. -/
theorem flush_single (procs : List MessageProcessor) (s : BatcherState)
    (batch : List Message) (hq : s.queues = [("default", batch)])
    (hne : batch ≠ []) :
    flushM procs s =
      Except.ok (⟨[("default", [])], s.timers, s.processIntervalActive⟩,
        fanout procs batch, failureLogs (settleAll procs batch)) := by
  have hget : mapGet s.queues "default" = some batch := by
    rw [hq]; simp [mapGet]
  have hdrain := processBatchM_drain procs "default" s batch hget hne
  rw [flushM, hq]
  simp only [mapKeys, List.map]
  rw [flushLoop]
  simp only [hdrain, hq]
  rw [flushLoop]
  simp [mapSet]

/-! ### The only-default-topic invariant -/

theorem keysDefault_mapSet (m : List (String × List Message)) (v : List Message)
    (h : ∀ e ∈ m, e.1 = "default") :
    ∀ e ∈ mapSet m "default" v, e.1 = "default" := by
  intro e he
  rcases mem_mapSet m "default" v e he with h1 | h1
  · rw [h1]
  · exact h e h1

theorem processBatchM_keysDefault (procs : List MessageProcessor) (chatId : String)
    (s : BatcherState) (r : BatcherState × Effects)
    (hs : ∀ e ∈ s.queues, e.1 = "default")
    (h : processBatchM procs chatId s = Except.ok r) :
    ∀ e ∈ r.1.queues, e.1 = "default" := by
  match hq : mapGet s.queues chatId with
  | none =>
    rw [processBatchM_none procs chatId s hq] at h
    injection h with h
    subst h
    exact hs
  | some [] =>
    rw [processBatchM_nil procs chatId s hq] at h
    injection h with h
    subst h
    exact hs
  | some (a :: tl) =>
    rw [processBatchM_drain procs chatId s (a :: tl) hq (by simp)] at h
    injection h with h
    subst h
    have hchat : chatId = "default" := hs _ (mapGet_mem s.queues chatId (a :: tl) hq)
    subst hchat
    exact keysDefault_mapSet s.queues [] hs

theorem flushLoop_keysDefault (procs : List MessageProcessor) (keys : List String) :
    ∀ acc r, (∀ e ∈ (acc.1 : BatcherState).queues, e.1 = "default") →
      flushLoop procs keys acc = Except.ok r →
      ∀ e ∈ r.1.queues, e.1 = "default" := by
  induction keys with
  | nil =>
    intro acc r ha h
    simp only [flushLoop] at h
    injection h with h
    subst h
    exact ha
  | cons k rest ih =>
    intro acc r ha h
    obtain ⟨r1, hr1⟩ := processBatchM_ok procs k acc.1
    rw [flushLoop, hr1] at h
    exact ih (r1.1, acc.2.1 ++ r1.2.1, acc.2.2 ++ r1.2.2) r
      (processBatchM_keysDefault procs k acc.1 r1 ha hr1) h

theorem queueMessage_keysDefault (cfg : BatcherConfig) (procs : List MessageProcessor)
    (t : String) (lv : Level) (s : BatcherState)
    (hs : ∀ e ∈ s.queues, e.1 = "default") :
    ∀ e ∈ (queueMessage cfg procs t lv s).1.queues, e.1 = "default" := by
  by_cases hge : (((mapGet s.queues "default").getD []).length + 1 : Int) ≥ cfg.maxBatchSize
  · rw [queueMessage_trigger cfg procs t lv s hge]
    exact keysDefault_mapSet s.queues [] hs
  · rw [queueMessage_no_trigger cfg procs t lv s (lt_of_not_ge hge)]
    exact keysDefault_mapSet s.queues _ hs

theorem step_keysDefault (cfg : BatcherConfig) (procs : List MessageProcessor)
    (s : BatcherState) (op : Op) (hs : ∀ e ∈ s.queues, e.1 = "default") :
    ∀ e ∈ (step cfg procs s op).1.queues, e.1 = "default" := by
  cases op with
  | info t => exact queueMessage_keysDefault cfg procs t Level.info s hs
  | warning t => exact queueMessage_keysDefault cfg procs t Level.warning s hs
  | error t => exact queueMessage_keysDefault cfg procs t Level.error s hs
  | queueMsg t lv => exact queueMessage_keysDefault cfg procs t lv s hs
  | flush =>
    obtain ⟨r, hr⟩ := flushM_ok procs s
    simp only [step, hr]
    exact flushLoop_keysDefault procs (mapKeys s.queues) _ r hs hr
  | tick =>
    by_cases hact : s.processIntervalActive = true
    · obtain ⟨r, hr⟩ := flushM_ok procs s
      simp only [step, hact, if_true, hr]
      exact flushLoop_keysDefault procs (mapKeys s.queues) _ r hs hr
    · simp only [step, hact, if_false]
      exact hs
  | destroy =>
    intro e he
    simp [step, destroy] at he

theorem runFrom_keysDefault (cfg : BatcherConfig) (procs : List MessageProcessor) :
    ∀ (ops : List Op) (s : BatcherState), (∀ e ∈ s.queues, e.1 = "default") →
      ∀ e ∈ (runFrom cfg procs s ops).1.queues, e.1 = "default" := by
  intro ops
  induction ops with
  | nil => intro s hs; exact hs
  | cons op rest ih =>
    intro s hs
    exact ih _ (step_keysDefault cfg procs s op hs)

/-! ### Folding a sequence of enqueues that never hits the size trigger -/

theorem runFrom_enqueue (cfg : BatcherConfig) (procs : List MessageProcessor) :
    ∀ (items : List (String × Level)) (pre : List Message) (s : BatcherState),
      s.queues = [("default", pre)] →
      ((pre.length : Int) + items.length < cfg.maxBatchSize) →
      runFrom cfg procs s (items.map fun it => Op.queueMsg it.1 it.2)
        = (⟨[("default", pre ++ mkMsgs items)], s.timers, s.processIntervalActive⟩,
           [], []) := by
  intro items
  induction items with
  | nil =>
    intro pre s hq hlen
    obtain ⟨qs, tm, ia⟩ := s
    simp only at hq
    subst hq
    simp [runFrom, mkMsgs]
  | cons it rest ih =>
    intro pre s hq hlen
    have hget : mapGet s.queues "default" = some pre := by
      rw [hq]; simp [mapGet]
    have hlt : (((mapGet s.queues "default").getD []).length + 1 : Int) < cfg.maxBatchSize := by
      rw [hget]
      simp only [Option.getD]
      simp only [List.length_map, List.length_cons] at hlen
      push_cast at hlen ⊢
      omega
    have hstep := queueMessage_no_trigger cfg procs it.1 it.2 s hlt
    rw [hget] at hstep
    simp only [Option.getD] at hstep
    rw [hq] at hstep
    simp only [mapSet] at hstep
    simp at hstep
    have hih := ih (pre ++ [⟨"default", it.1, it.2, none⟩])
      ⟨[("default", pre ++ [⟨"default", it.1, it.2, none⟩])], s.timers, s.processIntervalActive⟩
      rfl
      (by
        simp only [List.length_append, List.length_cons, List.length_nil,
          List.length_map] at hlen ⊢
        push_cast at hlen ⊢
        omega)
    simp only [List.map_cons, runFrom, step, hstep, hih, mkMsgs, List.map]
    simp [List.append_assoc]

/-- Once the interval has been cleared, no event ever reactivates it. -/
theorem step_interval_off (cfg : BatcherConfig) (procs : List MessageProcessor)
    (s : BatcherState) (op : Op) (h : s.processIntervalActive = false) :
    (step cfg procs s op).1.processIntervalActive = false := by
  cases op with
  | info t => exact (queueMessage_interval cfg procs t Level.info s).trans h
  | warning t => exact (queueMessage_interval cfg procs t Level.warning s).trans h
  | error t => exact (queueMessage_interval cfg procs t Level.error s).trans h
  | queueMsg t lv => exact (queueMessage_interval cfg procs t lv s).trans h
  | flush =>
    obtain ⟨r, hr⟩ := flushM_ok procs s
    simp only [step, hr]
    exact ((flushLoop_preserves procs (mapKeys s.queues) (s, [], []) r hr).2).trans h
  | tick => simp [step, h]
  | destroy => rfl

/-! ### The claims -/

/-- C1: for every non-empty (default-topic) batch and every list of registered
processors — including ones whose batch operation rejects — a flush dispatches
the batch to every processor (the calls are the full fan-out), and the
`flush()` promise itself fulfills rather than propagating any failure. -/
theorem claim_c1 (procs : List MessageProcessor) (s : BatcherState)
    (batch : List Message) (hq : s.queues = [("default", batch)])
    (hne : batch ≠ []) :
    ∃ st logs, flushM procs s = Except.ok (st, fanout procs batch, logs)
      ∧ mapGet st.queues "default" = some [] := by
  refine ⟨_, _, flush_single procs s batch hq hne, ?_⟩
  simp [mapGet]

/-- Witness for C1, with one always-failing and one succeeding processor. -/
theorem witness_c1 :
    ∃ st logs,
      flushM [⟨"fail", fun _ => Except.error "boom"⟩, ⟨"second", fun _ => Except.ok ()⟩]
          ⟨[("default", [⟨"default", "m1", Level.info, none⟩])], [], true⟩
        = Except.ok (st,
            fanout [⟨"fail", fun _ => Except.error "boom"⟩, ⟨"second", fun _ => Except.ok ()⟩]
              [⟨"default", "m1", Level.info, none⟩],
            logs)
      ∧ mapGet st.queues "default" = some [] :=
  claim_c1 _ _ _ rfl (by decide)

/-- C2: when an enqueue brings the default topic's pending count up to
`maxBatchSize`, that same enqueue call initiates the flush (the batch is
dispatched to all processors) and the queue is empty immediately after;
`info`, `warning` and `error` are instances of `queueMessage`. -/
theorem claim_c2 (cfg : BatcherConfig) (procs : List MessageProcessor)
    (t : String) (lv : Level) (s : BatcherState)
    (hpos : 0 < cfg.maxBatchSize)
    (hsz : (((mapGet s.queues "default").getD []).length + 1 : Int) = cfg.maxBatchSize) :
    mapGet (queueMessage cfg procs t lv s).1.queues "default" = some []
    ∧ (queueMessage cfg procs t lv s).2.1
        = fanout procs (((mapGet s.queues "default").getD []) ++ [⟨"default", t, lv, none⟩])
    ∧ info cfg procs t s = queueMessage cfg procs t Level.info s
    ∧ warning cfg procs t s = queueMessage cfg procs t Level.warning s
    ∧ error cfg procs t s = queueMessage cfg procs t Level.error s := by
  rw [queueMessage_trigger cfg procs t lv s (le_of_eq hsz.symm)]
  exact ⟨mapGet_set_self s.queues "default" [], rfl, rfl, rfl, rfl⟩

/-- Witness for C2 at `maxBatchSize = 1` on a fresh batcher. -/
theorem witness_c2 :
    mapGet (queueMessage ⟨1, 1000⟩ [⟨"p", fun _ => Except.ok ()⟩]
        "m1" Level.warning initState).1.queues "default" = some []
    ∧ (queueMessage ⟨1, 1000⟩ [⟨"p", fun _ => Except.ok ()⟩]
        "m1" Level.warning initState).2.1
        = fanout [⟨"p", fun _ => Except.ok ()⟩]
            (((mapGet initState.queues "default").getD [])
              ++ [⟨"default", "m1", Level.warning, none⟩])
    ∧ info ⟨1, 1000⟩ [⟨"p", fun _ => Except.ok ()⟩] "m1" initState
        = queueMessage ⟨1, 1000⟩ [⟨"p", fun _ => Except.ok ()⟩] "m1" Level.info initState
    ∧ warning ⟨1, 1000⟩ [⟨"p", fun _ => Except.ok ()⟩] "m1" initState
        = queueMessage ⟨1, 1000⟩ [⟨"p", fun _ => Except.ok ()⟩] "m1" Level.warning initState
    ∧ error ⟨1, 1000⟩ [⟨"p", fun _ => Except.ok ()⟩] "m1" initState
        = queueMessage ⟨1, 1000⟩ [⟨"p", fun _ => Except.ok ()⟩] "m1" Level.error initState :=
  claim_c2 ⟨1, 1000⟩ [⟨"p", fun _ => Except.ok ()⟩] "m1" Level.warning initState
    (by decide) (by decide)

/-- C3: a flush drains the queue atomically: the snapshot handed to every
processor is exactly the pending sequence, the queue is reset to empty, and a
message enqueued after the drain began is delivered by the next drain only —
it neither joins the in-flight batch nor is ever drained twice. -/
theorem claim_c3 (cfg : BatcherConfig) (procs : List MessageProcessor)
    (q : List Message) (s : BatcherState) (t : String) (lv : Level)
    (hq : s.queues = [("default", q)]) (hne : q ≠ [])
    (hsz : (1 : Int) < cfg.maxBatchSize) :
    ∃ st1 logs1,
      processBatchM procs "default" s = Except.ok (st1, fanout procs q, logs1)
      ∧ st1.queues = [("default", [])]
      ∧ (queueMessage cfg procs t lv st1).1.queues
          = [("default", [⟨"default", t, lv, none⟩])]
      ∧ (queueMessage cfg procs t lv st1).2.1 = []
      ∧ ∃ st2 logs2,
          processBatchM procs "default" (queueMessage cfg procs t lv st1).1
            = Except.ok (st2, fanout procs [⟨"default", t, lv, none⟩], logs2)
          ∧ st2.queues = [("default", [])] := by
  have hget : mapGet s.queues "default" = some q := by rw [hq]; simp [mapGet]
  have hset : mapSet s.queues "default" [] = [("default", [])] := by
    rw [hq]; simp [mapSet]
  have h1 := processBatchM_drain procs "default" s q hget hne
  have h1' : processBatchM procs "default" s
      = Except.ok (⟨[("default", [])], s.timers, s.processIntervalActive⟩,
          fanout procs q, failureLogs (settleAll procs q)) := by
    rw [h1, hset]
  have h2 := queueMessage_no_trigger cfg procs t lv
    ⟨[("default", [])], s.timers, s.processIntervalActive⟩
    (by simp [mapGet]; omega)
  simp only [mapGet, mapSet, if_pos rfl, Option.getD, List.nil_append] at h2
  simp at h2
  have h3 := processBatchM_drain procs "default"
    ⟨[("default", [⟨"default", t, lv, none⟩])], s.timers, s.processIntervalActive⟩
    [⟨"default", t, lv, none⟩] (by simp [mapGet]) (by simp)
  refine ⟨_, _, h1', rfl, ?_, ?_, ?_⟩
  · rw [h2]
  · rw [h2]
  · refine ⟨⟨[("default", [])], s.timers, s.processIntervalActive⟩,
      failureLogs (settleAll procs [⟨"default", t, lv, none⟩]), ?_, rfl⟩
    rw [h2, h3]
    simp [mapSet]

/-- Witness for C3: drain one message, enqueue another during dispatch, drain
again; the second message is exactly the next batch. -/
theorem witness_c3 :
    ∃ st1 logs1,
      processBatchM [⟨"p", fun _ => Except.error "boom"⟩] "default"
          ⟨[("default", [⟨"default", "first", Level.info, none⟩])], [], true⟩
        = Except.ok (st1,
            fanout [⟨"p", fun _ => Except.error "boom"⟩]
              [⟨"default", "first", Level.info, none⟩], logs1)
      ∧ st1.queues = [("default", [])]
      ∧ (queueMessage ⟨5, 100⟩ [⟨"p", fun _ => Except.error "boom"⟩]
          "second" Level.warning st1).1.queues
          = [("default", [⟨"default", "second", Level.warning, none⟩])]
      ∧ (queueMessage ⟨5, 100⟩ [⟨"p", fun _ => Except.error "boom"⟩]
          "second" Level.warning st1).2.1 = []
      ∧ ∃ st2 logs2,
          processBatchM [⟨"p", fun _ => Except.error "boom"⟩] "default"
              (queueMessage ⟨5, 100⟩ [⟨"p", fun _ => Except.error "boom"⟩]
                "second" Level.warning st1).1
            = Except.ok (st2,
                fanout [⟨"p", fun _ => Except.error "boom"⟩]
                  [⟨"default", "second", Level.warning, none⟩], logs2)
          ∧ st2.queues = [("default", [])] :=
  claim_c3 ⟨5, 100⟩ [⟨"p", fun _ => Except.error "boom"⟩]
    [⟨"default", "first", Level.info, none⟩]
    ⟨[("default", [⟨"default", "first", Level.info, none⟩])], [], true⟩
    "second" Level.warning rfl (by decide) (by decide)

/-- C4: a sequence of messages enqueued between two flushes (never hitting the
size trigger) is delivered to every processor as one batch in exactly the
enqueue order. -/
theorem claim_c4 (cfg : BatcherConfig) (procs : List MessageProcessor)
    (items : List (String × Level)) (s : BatcherState)
    (h0 : s.queues = [("default", [])])
    (hlen : (items.length : Int) < cfg.maxBatchSize)
    (hne : items ≠ []) :
    (runFrom cfg procs s (items.map fun it => Op.queueMsg it.1 it.2)).1.queues
        = [("default", mkMsgs items)]
    ∧ (runFrom cfg procs s (items.map fun it => Op.queueMsg it.1 it.2)).2.1 = []
    ∧ ∃ st logs,
        flushM procs (runFrom cfg procs s (items.map fun it => Op.queueMsg it.1 it.2)).1
          = Except.ok (st, fanout procs (mkMsgs items), logs)
        ∧ mapGet st.queues "default" = some [] := by
  have hrun := runFrom_enqueue cfg procs items [] s h0 (by simpa using hlen)
  simp only [List.nil_append] at hrun
  rw [hrun]
  refine ⟨rfl, rfl, ⟨[("default", [])], s.timers, s.processIntervalActive⟩,
    failureLogs (settleAll procs (mkMsgs items)), ?_, ?_⟩
  · exact flush_single procs _ (mkMsgs items) rfl (by simpa [mkMsgs] using hne)
  · simp [mapGet]

/-- Witness for C4 with the three messages M1, M2, M3 of the spec. -/
theorem witness_c4 :
    (runFrom ⟨5, 100⟩ [⟨"p", fun _ => Except.ok ()⟩]
        ⟨[("default", [])], [], true⟩
        (([("M1", Level.info), ("M2", Level.warning), ("M3", Level.error)]).map
          fun it => Op.queueMsg it.1 it.2)).1.queues
        = [("default", mkMsgs [("M1", Level.info), ("M2", Level.warning), ("M3", Level.error)])]
    ∧ (runFrom ⟨5, 100⟩ [⟨"p", fun _ => Except.ok ()⟩]
        ⟨[("default", [])], [], true⟩
        (([("M1", Level.info), ("M2", Level.warning), ("M3", Level.error)]).map
          fun it => Op.queueMsg it.1 it.2)).2.1 = []
    ∧ ∃ st logs,
        flushM [⟨"p", fun _ => Except.ok ()⟩]
            (runFrom ⟨5, 100⟩ [⟨"p", fun _ => Except.ok ()⟩]
              ⟨[("default", [])], [], true⟩
              (([("M1", Level.info), ("M2", Level.warning), ("M3", Level.error)]).map
                fun it => Op.queueMsg it.1 it.2)).1
          = Except.ok (st,
              fanout [⟨"p", fun _ => Except.ok ()⟩]
                (mkMsgs [("M1", Level.info), ("M2", Level.warning), ("M3", Level.error)]),
              logs)
        ∧ mapGet st.queues "default" = some [] :=
  claim_c4 ⟨5, 100⟩ [⟨"p", fun _ => Except.ok ()⟩]
    [("M1", Level.info), ("M2", Level.warning), ("M3", Level.error)]
    ⟨[("default", [])], [], true⟩ rfl (by decide) (by decide)

/-- C5 (code bug): the handle returned by `createMessageBatcher` exposes only
`info`, `warning`, `error`, `queueMessage`, `flush` and `destroy`; contrary to
the claim and to the repository's own tests, `flushSync`, `addExtraProcessor`
and `removeExtraProcessor` are absent. -/
theorem claim_c5_bug :
    "flushSync" ∉ returnedInterface
    ∧ "addExtraProcessor" ∉ returnedInterface
    ∧ "removeExtraProcessor" ∉ returnedInterface
    ∧ "info" ∈ returnedInterface ∧ "warning" ∈ returnedInterface
    ∧ "error" ∈ returnedInterface ∧ "queueMessage" ∈ returnedInterface
    ∧ "flush" ∈ returnedInterface ∧ "destroy" ∈ returnedInterface := by
  decide

/-- C6 counterexample: `destroy()` does not make the instance inert — a
subsequent enqueue still queues, and with `maxBatchSize = 1` the size trigger
dispatches the post-destroy message to a processor. -/
theorem counterexample_c6 :
    (runFrom ⟨1, 1000⟩ [⟨"mock", fun _ => Except.ok ()⟩] initState
        [Op.destroy, Op.info "after"]).2.1
      = [⟨"mock", 0, [⟨"default", "after", Level.info, none⟩]⟩] := by
  decide

/-- C6 (amended): `destroy()` clears the interval, the timers and all queues
without dispatching, and the periodic timer never fires again; but the
instance is NOT inert: later enqueues queue normally and a size-triggered
enqueue still dispatches to processors. -/
theorem claim_c6_amended (cfg : BatcherConfig) (procs : List MessageProcessor) :
    (∀ s : BatcherState, step cfg procs s Op.destroy = (⟨[], [], false⟩, [], []))
    ∧ (∀ s : BatcherState, s.processIntervalActive = false →
        step cfg procs s Op.tick = (s, [], []))
    ∧ (∀ (s : BatcherState) (op : Op), s.processIntervalActive = false →
        (step cfg procs s op).1.processIntervalActive = false)
    ∧ (runFrom ⟨1, 1000⟩ [⟨"p", fun _ => Except.ok ()⟩] initState
        [Op.destroy, Op.warning "w"]).2.1 ≠ [] := by
  refine ⟨fun s => rfl, fun s h => by simp [step, h],
    fun s op h => step_interval_off cfg procs s op h, by decide⟩

/-- Witness for C6: a dead timer tick is a no-op even with a pending queue. -/
theorem witness_c6 :
    step ⟨2, 100⟩ [] ⟨[("default", [⟨"default", "m", Level.info, none⟩])], [], false⟩
        Op.tick
      = (⟨[("default", [⟨"default", "m", Level.info, none⟩])], [], false⟩, [], []) :=
  (claim_c6_amended ⟨2, 100⟩ []).2.1 _ rfl

/-- C7 counterexample: constructing with non-positive `maxBatchSize` and
`maxWaitMs` does not fail — it returns a working batcher state. -/
theorem counterexample_c7 :
    createMessageBatcher [] ⟨0, 0⟩ = Except.ok initState
    ∧ (createMessageBatcher [] ⟨0, 0⟩).isOk = true :=
  ⟨rfl, rfl⟩

/-- C7 (amended): `createMessageBatcher` performs no configuration validation
at all — construction succeeds for every processors list and every
configuration, non-positive values included. -/
theorem claim_c7_amended (procs : List MessageProcessor) (cfg : BatcherConfig) :
    createMessageBatcher procs cfg = Except.ok initState := rfl

/-- C8 (code bug): the failure report at the fan-out boundary is tagged with
the processor's INDEX in the array, not its name: with the single processor
named `mock` failing, the log line is tagged `Processor 0 failed:`. -/
theorem claim_c8_bug :
    flushM [⟨"mock", fun _ => Except.error "Async error"⟩]
        ⟨[("default", [⟨"default", "test message", Level.info, none⟩])], [], true⟩
      = Except.ok (⟨[("default", [])], [], true⟩,
          [⟨"mock", 0, [⟨"default", "test message", Level.info, none⟩]⟩],
          [("Processor 0 failed:", "Async error")])
    ∧ "Processor 0 failed:" ≠ "Processor mock failed:" :=
  ⟨rfl, by decide⟩

/-- C9 (code bug): the `error` wrapper of `batcher.ts` takes only the message
text — there is no error-object parameter — so the enqueued error-level
message never carries a supplied failure object: its error field is `none`. -/
theorem claim_c9_bug :
    (error ⟨5, 100⟩ [] "Test error message" initState).1.queues
      = [("default", [⟨"default", "Test error message", Level.error, none⟩])]
    ∧ ((error ⟨5, 100⟩ [] "Test error message" initState).1.queues.map
        fun e => e.2.map Message.error) = [[none]] :=
  ⟨rfl, rfl⟩

/-- C10: in every reachable state — any event sequence from a fresh batcher —
the queue store's key set is contained in the singleton default topic: the
topic is never caller-controlled. -/
theorem claim_c10 (cfg : BatcherConfig) (procs : List MessageProcessor)
    (ops : List Op) : onlyDefaultTopic (run cfg procs ops).1 = true := by
  have h := runFrom_keysDefault cfg procs ops initState
    (by intro e he; simp [initState] at he)
  simp only [onlyDefaultTopic, List.all_eq_true]
  intro e he
  exact beq_iff_eq.mpr (h e he)

end TelegramBatchBot
